/-
  Verification of the workflow engine of the `pwp_project` repository.

  The repository's visible sources are Frappe form scripts.  The pieces of
  logic present in the sources (workflow-definition validation before
  activation, Start/End step field clearing, default step numbering, the
  required-argument policy of the action dialog) are embedded directly from
  the JavaScript.  The server-side engine (condition evaluator, transition
  state machine, assignee resolver, timeout scheduler) is invoked through
  opaque RPC calls and is not in the sources; those components are modelled
  from the spec, as marked on each definition.
-/
import Mathlib

namespace PwpProject

/-! ## Data model

Mirrors the child doctypes manipulated by the form scripts
(`Workflow Step`, `Workflow Step Action`, `Workflow Step Condition`,
`Workflow Transition`, `Workflow Definition`).  String-valued select fields
are kept as strings, exactly as the JavaScript compares them; Frappe check
fields (0/1 ints) become `Bool`; numeric fields become `Nat` (`step_order`
`0` plays the role of the unset/falsy JS value normalised by `|| 0`). -/

/-- One row of the `actions` child table of a Workflow Step
(`Workflow Step Action`): name, `action_type` ∈
{Approval, Rejection, Forward, Skip, Cancel}, optional `next_step` target. -/
structure ActionRow where
  action_name : String
  action_type : String
  next_step : String
  role : String
deriving DecidableEq, Repr

/-- One row of the `conditions` child table (`Workflow Step Condition`):
`condition_type` ∈ {Field-based, Role-based}, comparison fields and the
`logical_operator` ∈ {AND, OR} combining it with its siblings. -/
structure ConditionRow where
  condition_type : String
  field_name : String
  operator : String
  value : String
  role : String
  logical_operator : String
deriving DecidableEq, Repr

/-- One row of the `steps` child table of a Workflow Definition
(`Workflow Step`), with the fields the form scripts read and write. -/
structure StepRow where
  step_name : String
  step_order : Nat
  step_type : String
  assignee_type : String
  assignee_value : String
  allowed_roles : List String
  custom_script : String
  time_limit : Nat
  timeout_days : Nat
  escalation_days : Nat
  notify_on_timeout : Bool
  notify_on_escalation : Bool
  allow_skip : Bool
  allow_reject : Bool
  actions : List ActionRow
  conditions : List ConditionRow
deriving DecidableEq, Repr

/-- One row of the `transitions` child table (`Workflow Transition`);
`from_step` and `to_step` are link fields naming Workflow Steps. -/
structure TransitionRow where
  from_step : String
  to_step : String
  auto_transition : Bool
  notify_on_transition : Bool
deriving DecidableEq, Repr

/-- The `Workflow Definition` form state (`frm.doc`) as read by the
client scripts in `workflow_definition.js`. -/
structure WorkflowDefinition where
  workflow_name : String
  document_type : String
  is_active : Bool
  allow_parallel_steps : Bool
  auto_start_on_creation : Bool
  steps : List StepRow
  transitions : List TransitionRow
  permissions : List String
deriving DecidableEq, Repr

/-! ## Workflow definition validation (`workflow_definition.js`,
`validate_workflow_before_activation`) -/

/-- The three checks of `validate_workflow_before_activation`:
exactly one step with `step_type === 'Start'`, at least one with
`step_type === 'End'`, and the sorted list of `step_order` values equal to
`1, 2, ..., N` (the JS sorts `step_orders` numerically and requires
`step_orders[i] === i + 1` at every index).  `true` means every check
passed and the function returns without resetting `is_active`. -/
def workflow_steps_valid (steps : List StepRow) : Bool :=
  let start_steps := steps.filter (fun step => step.step_type == "Start")
  let end_steps := steps.filter (fun step => step.step_type == "End")
  if start_steps.length != 1 then false
  else if end_steps.length == 0 then false
  else
    let step_orders := (steps.map (fun step => step.step_order)).insertionSort (· ≤ ·)
    step_orders == List.range' 1 steps.length

/-- `validate_workflow_before_activation(frm)` as a transformer of the form
state: on any failed check it executes `frm.set_value('is_active', 0)` and
returns; on success it leaves the document untouched. -/
def validate_workflow_before_activation (d : WorkflowDefinition) : WorkflowDefinition :=
  if workflow_steps_valid d.steps then d else { d with is_active := false }

/-- The `is_active` field handler of the Workflow Definition form: when the
flag has just been set, run `validate_workflow_before_activation`;
otherwise do nothing. -/
def is_active_trigger (d : WorkflowDefinition) : WorkflowDefinition :=
  if d.is_active then validate_workflow_before_activation d else d

/-- Spec wording, for comparison with the code (refinement check of C1):
"every `next_step`/`from_step`/`to_step` reference resolves within the
definition" — each transition endpoint and each Forward action's
`next_step` names a step of the definition. -/
def refs_resolve_spec (d : WorkflowDefinition) : Bool :=
  d.transitions.all (fun t =>
    d.steps.any (fun s => s.step_name == t.from_step) &&
    d.steps.any (fun s => s.step_name == t.to_step)) &&
  d.steps.all (fun s => s.actions.all (fun a =>
    a.action_type != "Forward" || d.steps.any (fun s2 => s2.step_name == a.next_step)))

/-! ## Definition-builder row operations (`workflow_definition.js` grid
handlers, `workflow_step.js`) -/

/-- A Workflow Step row with every field empty/zero/off — the state of a
freshly inserted grid row before the `steps_add` handler fires (Frappe
creates new child rows blank; JS `undefined`/`0`/`''` are the falsy values
the handler tests with `!row.field`). -/
def blank_row : StepRow :=
  { step_name := "", step_order := 0, step_type := "", assignee_type := "",
    assignee_value := "", allowed_roles := [], custom_script := "",
    time_limit := 0, timeout_days := 0, escalation_days := 0,
    notify_on_timeout := false, notify_on_escalation := false,
    allow_skip := false, allow_reject := false, actions := [], conditions := [] }

/-- `Math.max(0, ...frm.doc.steps.map(s => s.step_order || 0))` from the
`steps_add` handler. -/
def max_step_order (steps : List StepRow) : Nat :=
  (steps.map (fun s => s.step_order)).foldl max 0

/-- The `steps_add` handler of `workflow_definition.js`: fills the
defaults of a newly added row.  `steps` is the contents of the steps table
when the handler fires (in Frappe the new blank row is already part of it;
its order `0` does not change the maximum). -/
def steps_add (steps : List StepRow) (row : StepRow) : StepRow :=
  let row := if row.step_order == 0 then
    { row with step_order := max_step_order steps + 1 } else row
  let row := if row.step_type == "" then { row with step_type := "Approval" } else row
  let row := if row.assignee_type == "" then { row with assignee_type := "Role" } else row
  let row := if row.notify_on_timeout == false then { row with notify_on_timeout := true } else row
  if row.notify_on_escalation == false then { row with notify_on_escalation := true } else row

/-- The `step_type` field handler (`workflow_definition.js` lines 183–198;
the value-setting block of `handle_step_type_visibility` in
`workflow_step.js` lines 62–73 is identical): setting the type to Start or
End clears assignee, timing, notify and action-behaviour fields. -/
def step_type_handler (row : StepRow) (t : String) : StepRow :=
  let row := { row with step_type := t }
  if t == "Start" || t == "End" then
    { row with
      assignee_type := "None"
      assignee_value := ""
      allowed_roles := []
      time_limit := 0
      timeout_days := 0
      escalation_days := 0
      notify_on_timeout := false
      notify_on_escalation := false
      allow_skip := false
      allow_reject := false }
  else row

/-- The `assignee_type` field handler (`workflow_definition.js` lines
200–207): choosing `None` clears `assignee_value` and `allowed_roles`. -/
def assignee_type_handler (row : StepRow) (a : String) : StepRow :=
  let row := { row with assignee_type := a }
  if a == "None" then { row with assignee_value := "", allowed_roles := [] } else row

/-- An `assignee_type` edit as reachable through the builder UI: the field
is hidden for Start/End steps (`workflow_step.js` line 45,
`set_df_property('assignee_type', 'hidden', is_start_or_end)`), so the
handler can only fire on a step that is not Start or End. -/
def assignee_type_edit (row : StepRow) (a : String) : StepRow :=
  if row.step_type == "Start" || row.step_type == "End" then row
  else assignee_type_handler row a

/-- The Start/End clearing invariant of the data model: such a step carries
no assignee, no timing, no notify flags, no action-behaviour flags. -/
def start_end_clear (row : StepRow) : Prop :=
  row.assignee_type = "None" ∧ row.assignee_value = "" ∧ row.allowed_roles = [] ∧
  row.time_limit = 0 ∧ row.timeout_days = 0 ∧ row.escalation_days = 0 ∧
  row.notify_on_timeout = false ∧ row.notify_on_escalation = false ∧
  row.allow_skip = false ∧ row.allow_reject = false

/-- The invariant as a property of an arbitrary step row. -/
def step_invariant (row : StepRow) : Prop :=
  row.step_type = "Start" ∨ row.step_type = "End" → start_end_clear row

/-! ## Condition evaluator

Modelled from the spec: the evaluator itself runs server-side and is not in
the visible sources; §4.3 fixes its contract. -/

/-- Modelled from the spec: §6 collaborator interface
`read_document_field(document_id, field_name) -> value`; the document is a
field-name/value map. -/
def read_document_field (doc : List (String × String)) (field : String) : String :=
  ((doc.find? (fun p => p.1 == field)).map (fun p => p.2)).getD ""

/-- Modelled from the spec: §4.3 — a Field-based condition compares the
named document field against `value` with `operator` (numeric coercion for
the ordering operators); a Role-based condition is true iff the acting
assignee holds `role`. -/
def eval_single_condition (actor_roles : List String) (doc : List (String × String))
    (c : ConditionRow) : Bool :=
  if c.condition_type == "Role-based" then actor_roles.contains c.role
  else
    let fv := read_document_field doc c.field_name
    if c.operator == "equals" then fv == c.value
    else if c.operator == "not equals" then fv != c.value
    else if c.operator == "greater than" then
      match fv.toInt?, c.value.toInt? with
      | some a, some b => decide (b < a)
      | _, _ => false
    else if c.operator == "less than" then
      match fv.toInt?, c.value.toInt? with
      | some a, some b => decide (a < b)
      | _, _ => false
    else false

/-- Modelled from the spec: §4.3 — each entry's `logical_operator` combines
its own value with the accumulated result of the conditions before it. -/
def combine_condition (op : String) (acc b : Bool) : Bool :=
  if op == "OR" then acc || b else acc && b

/-- Modelled from the spec: §4.3 `evaluate(conditions, document) -> bool` —
left-to-right combination without precedence, the first entry's own
operator ignored, the empty list true. -/
def evaluate_conditions (actor_roles : List String) (doc : List (String × String)) :
    List ConditionRow → Bool
  | [] => true
  | c :: rest =>
      rest.foldl
        (fun acc c' =>
          combine_condition c'.logical_operator acc (eval_single_condition actor_roles doc c'))
        (eval_single_condition actor_roles doc c)

/-! ## Assignee resolver

Modelled from the spec: §4.2; the resolver runs server-side
(`workflow_step.py get_assignees` is called by the Test-Dynamic-Assignee
dialog but is not in the sources). -/

/-- A user directory record: identity, enabled flag, held roles. -/
structure UserRec where
  user_id : String
  enabled : Bool
  roles : List String
deriving DecidableEq, Repr

/-- Modelled from the spec: §7 error taxonomy, `ResolutionError`. -/
inductive ResolutionError where
  | AssigneeDisabled
  | ScriptFailed
  | EmptyResolution
deriving DecidableEq, Repr

/-- Modelled from the spec: §4.2 `resolve(step, document) -> Set<ActorIdentity>`
by `assignee_type`; a Dynamic script is a document-scoped function whose
exception (`Except.error`) is caught and surfaced as `ScriptFailed`;
results are deduplicated. -/
def resolve (step : StepRow) (doc : List (String × String)) (users : List UserRec)
    (script : List (String × String) → Except String (List String)) :
    Except ResolutionError (List String) :=
  if step.assignee_type == "None" then .ok []
  else if step.assignee_type == "Role" then
    .ok (((users.filter (fun u => u.enabled && u.roles.contains step.assignee_value
        && (step.allowed_roles.isEmpty || u.roles.any (fun r => step.allowed_roles.contains r)))).map
          (fun u => u.user_id)).dedup)
  else if step.assignee_type == "User" then
    match users.find? (fun u => u.user_id == step.assignee_value) with
    | some u => if u.enabled then .ok [u.user_id] else .error .AssigneeDisabled
    | none => .error .AssigneeDisabled
  else if step.assignee_type == "Field-based" then
    let v := read_document_field doc step.assignee_value
    .ok (((users.filter (fun u => u.enabled && (u.user_id == v || u.roles.contains v))).map
      (fun u => u.user_id)).dedup)
  else if step.assignee_type == "Dynamic" then
    match script doc with
    | .ok actors => .ok actors.dedup
    | .error _ => .error .ScriptFailed
  else .ok []

/-- Modelled from the spec: §4.2/§4.5 — entering a step resolves assignees;
a resolution failure, or an empty result on a step requiring human action,
degrades to zero assignees with immediate escalation instead of failing the
request.  Returns (assignees, escalate). -/
def enter_step (step : StepRow) (doc : List (String × String)) (users : List UserRec)
    (script : List (String × String) → Except String (List String)) :
    List String × Bool :=
  match resolve step doc users script with
  | .error _ => ([], true)
  | .ok [] => if step.assignee_type == "None" then ([], false) else ([], true)
  | .ok actors => (actors, false)

/-! ## Timeout/escalation scheduler

Modelled from the spec: §4.5; no scheduler code is in the visible sources. -/

/-- The deduplication key of an emitted event:
`(instance_id, step_order, entered_at)` (§4.5). -/
structure StepEntryKey where
  instance_id : String
  step_order : Nat
  entered_at : Nat
deriving DecidableEq, Repr

/-- An active step entry the scheduler watches; times are in hours. -/
structure ActiveStepEntry where
  key : StepEntryKey
  time_limit : Nat
  timeout_days : Nat
  escalation_days : Nat
  resolved : Bool
deriving DecidableEq, Repr

/-- The persisted scheduler state: watched entries plus the keys of every
escalation event already emitted (survives restart/recovery). -/
structure SchedulerState where
  active : List ActiveStepEntry
  emitted : List StepEntryKey
deriving DecidableEq, Repr

/-- Modelled from the spec: §4.5 — an escalation is due when the step is
still unresolved, `escalation_days > 0`, and the current time has passed
`entered_at + timeout_days + escalation_days` (days in hours). -/
def escalation_due (now : Nat) (e : ActiveStepEntry) : Bool :=
  !e.resolved && decide (0 < e.escalation_days)
    && decide (e.key.entered_at + 24 * e.timeout_days + 24 * e.escalation_days ≤ now)

/-- Modelled from the spec: §4.5 — one entry of a scan: fire an escalation
event only when it is due and its key has never been emitted; record the
key. -/
def scan_step (now : Nat) (acc : SchedulerState × List StepEntryKey)
    (e : ActiveStepEntry) : SchedulerState × List StepEntryKey :=
  if escalation_due now e && !acc.1.emitted.contains e.key then
    ({ acc.1 with emitted := acc.1.emitted ++ [e.key] }, acc.2 ++ [e.key])
  else acc

/-- Modelled from the spec: §4.5 — a periodic scan over the active entries;
returns the new state and the events fired by this scan. -/
def scan (σ : SchedulerState) (now : Nat) : SchedulerState × List StepEntryKey :=
  σ.active.foldl (scan_step now) (σ, [])

/-! ## Transition state machine

Modelled from the spec: §4.4/§6/§7; `execute_workflow_action`,
`start_workflow` and friends run server-side and the visible client only
calls them by name. -/

/-- Instance lifecycle status (§3 WorkflowInstance). -/
inductive WStatus where
  | Pending
  | InProgress
  | Completed
  | Cancelled
deriving DecidableEq, Repr

/-- Modelled from the spec: §7 error taxonomy — `StateError` plus the
`ActionError` variants; `InvalidDefinition` stands for a definition whose
Start step or its outgoing transition cannot be resolved. -/
inductive EngineError where
  | StateError
  | ActionNotAllowedForStep
  | ActorNotAuthorized
  | ConditionNotMet
  | StaleStep
  | MissingReason
  | MissingNextStep
  | InvalidDefinition
deriving DecidableEq, Repr

/-- One append-only audit-trail entry (§3 HistoryEntry). -/
structure HistoryEntry where
  step_order : Nat
  action : String
  actor : String
  comment : String
deriving DecidableEq, Repr

/-- A workflow instance (§3 WorkflowInstance): status, current position,
resolved assignees, escalation flag of the current step, history. -/
structure Instance where
  document : String
  status : WStatus
  current_step : Nat
  current_assignees : List String
  escalated : Bool
  history : List HistoryEntry
deriving DecidableEq, Repr

/-- The kind (`step_type`) of the step a position number denotes, looked up
in the definition. -/
def step_kind_at (defn : WorkflowDefinition) (ord : Nat) : Option String :=
  (defn.steps.find? (fun s => s.step_order == ord)).map (fun s => s.step_type)

/-- Modelled from the spec: §4.4 — entering a target step: set the
position, re-resolve assignees (escalating on failure), append a history
entry, and if the target is an End step set status `Completed`
automatically, otherwise stay `In Progress`. -/
def advance_to (users : List UserRec)
    (script : List (String × String) → Except String (List String))
    (doc : List (String × String)) (inst : Instance) (target : StepRow)
    (entry : HistoryEntry) : Instance :=
  let ae := enter_step target doc users script
  { inst with
    status := if target.step_type == "End" then .Completed else .InProgress
    current_step := target.step_order
    current_assignees := ae.1
    escalated := ae.2
    history := inst.history ++ [entry] }

/-- Modelled from the spec: §4.4 `start` — legal only from `Pending`;
resolves the single Start step and its outgoing transition, then advances
to the first real step. -/
def start_workflow (defn : WorkflowDefinition) (users : List UserRec)
    (script : List (String × String) → Except String (List String))
    (doc : List (String × String)) (inst : Instance) : Except EngineError Instance :=
  if inst.status != .Pending then .error .StateError
  else
    match defn.steps.find? (fun s => s.step_type == "Start") with
    | none => .error .InvalidDefinition
    | some st =>
      match defn.transitions.find? (fun t => t.from_step == st.step_name) with
      | none => .error .InvalidDefinition
      | some tr =>
        match defn.steps.find? (fun s => s.step_name == tr.to_step) with
        | none => .error .InvalidDefinition
        | some target =>
          .ok (advance_to users script doc inst target
            { step_order := target.step_order, action := "Start", actor := "system", comment := "" })

/-- The `next_step` targets declared by the step's Forward actions. -/
def forward_targets (st : StepRow) : List String :=
  st.actions.filterMap (fun a => if a.action_type == "Forward" then some a.next_step else none)

/-- Modelled from the spec: §4.4 `execute_action` — legal only from
`In Progress`, for an authorized actor and an action declared on the
current step; Rejection/Cancel need a non-empty `reason` (`MissingReason`),
Forward needs a `next_step` among the step's declared Forward targets
(`MissingNextStep`); a Cancel action terminates the instance in place;
otherwise the gating conditions are evaluated (`ConditionNotMet` on
failure) and the instance advances along the chosen transition. -/
def execute_action (defn : WorkflowDefinition) (users : List UserRec)
    (script : List (String × String) → Except String (List String))
    (doc : List (String × String)) (actor_roles : List String) (inst : Instance)
    (action_name actor comment : String) (reason : Option String)
    (next_step : Option String) : Except EngineError Instance :=
  if inst.status != .InProgress then .error .StateError
  else
    match defn.steps.find? (fun s => s.step_order == inst.current_step) with
    | none => .error .StaleStep
    | some st =>
      if !(inst.current_assignees.contains actor
          || actor_roles.any (fun r => defn.permissions.contains r)) then
        .error .ActorNotAuthorized
      else
        match st.actions.find? (fun a => a.action_name == action_name) with
        | none => .error .ActionNotAllowedForStep
        | some act =>
          if (act.action_type == "Rejection" || act.action_type == "Cancel")
              && (reason.getD "" == "") then .error .MissingReason
          else if act.action_type == "Forward"
              && !((next_step.map (fun t => (forward_targets st).contains t)).getD false) then
            .error .MissingNextStep
          else if act.action_type == "Cancel" then
            .ok { inst with
                  status := .Cancelled
                  history := inst.history ++
                    [{ step_order := st.step_order, action := action_name,
                       actor := actor, comment := comment }] }
          else if !(evaluate_conditions actor_roles doc st.conditions) then
            .error .ConditionNotMet
          else
            match defn.steps.find? (fun s => s.step_name ==
                (if act.action_type == "Forward" then next_step.getD ""
                 else ((defn.transitions.find? (fun t => t.from_step == st.step_name)).map
                   (fun t => t.to_step)).getD "")) with
            | none => .error .StaleStep
            | some target =>
              .ok (advance_to users script doc inst target
                { step_order := target.step_order, action := action_name,
                  actor := actor, comment := comment })

/-- The state the repository holds after an `execute_action` request: the
new instance when the call succeeded, the untouched previous instance when
it failed (§7: every transition commits atomically or not at all). -/
def apply_execute (defn : WorkflowDefinition) (users : List UserRec)
    (script : List (String × String) → Except String (List String))
    (doc : List (String × String)) (actor_roles : List String) (inst : Instance)
    (action_name actor comment : String) (reason : Option String)
    (next_step : Option String) : Instance :=
  match execute_action defn users script doc actor_roles inst action_name actor
      comment reason next_step with
  | .ok inst' => inst'
  | .error _ => inst

/-- The instances reachable for a fixed definition: the result of a
successful `start_workflow`, closed under successful `execute_action`
calls (any users/document/roles per call). -/
inductive ReachableInstance (defn : WorkflowDefinition) : Instance → Prop where
  | start (users : List UserRec)
      (script : List (String × String) → Except String (List String))
      (doc : List (String × String)) (inst inst' : Instance) :
      start_workflow defn users script doc inst = .ok inst' →
      ReachableInstance defn inst'
  | exec (users : List UserRec)
      (script : List (String × String) → Except String (List String))
      (doc : List (String × String)) (actor_roles : List String)
      (inst : Instance) (action_name actor comment : String)
      (reason : Option String) (next_step : Option String) (inst' : Instance) :
      ReachableInstance defn inst →
      execute_action defn users script doc actor_roles inst action_name actor
        comment reason next_step = .ok inst' →
      ReachableInstance defn inst'

/-! ## The action dialog (`workflow_instance.js`,
`execute_workflow_action`) -/

/-- The fields of the Execute-Action dialog with their `reqd` flags
(`workflow_instance.js` lines 100–113): always a comment; a required
`reason` exactly for Rejection/Cancel; a required `next_step` exactly for
Forward. -/
def execute_workflow_action_fields (action_type : String) : List (String × Bool) :=
  [("comment", false)]
    ++ (if action_type == "Rejection" || action_type == "Cancel"
        then [("reason", true)] else [])
    ++ (if action_type == "Forward" then [("next_step", true)] else [])

/-! ## Concrete instances used by the witnesses -/

/-- The Start step of the §8 scenario definition. -/
def demo_start_step : StepRow :=
  { blank_row with
    step_name := "Start"
    step_order := 1
    step_type := "Start"
    assignee_type := "None" }

/-- The Approval step of the §8 scenario: Role assignee `Approver`, a
single Approve action. -/
def demo_review_step : StepRow :=
  { blank_row with
    step_name := "Review"
    step_order := 2
    step_type := "Approval"
    assignee_type := "Role"
    assignee_value := "Approver"
    notify_on_timeout := true
    notify_on_escalation := true
    actions := [{ action_name := "Approve", action_type := "Approval", next_step := "", role := "All" }] }

/-- The End step of the §8 scenario definition. -/
def demo_end_step : StepRow :=
  { blank_row with
    step_name := "Done"
    step_order := 3
    step_type := "End"
    assignee_type := "None" }

/-- The §8 scenario definition: Start(1) → Approval(2) → End(3). -/
def demo_defn : WorkflowDefinition :=
  { workflow_name := "Demo"
    document_type := "Document"
    is_active := true
    allow_parallel_steps := false
    auto_start_on_creation := false
    steps := [demo_start_step, demo_review_step, demo_end_step]
    transitions :=
      [{ from_step := "Start", to_step := "Review", auto_transition := true, notify_on_transition := true },
       { from_step := "Review", to_step := "Done", auto_transition := false, notify_on_transition := true }]
    permissions := [] }

/-- One enabled user holding the Approver role. -/
def demo_users : List UserRec := [{ user_id := "alice", enabled := true, roles := ["Approver"] }]

/-- A dynamic-assignee script that returns no actors (unused along the
demo path, whose steps are Role/None assigned). -/
def demo_script : List (String × String) → Except String (List String) := fun _ => .ok []

/-- A dynamic-assignee script that raises. -/
def failing_script : List (String × String) → Except String (List String) := fun _ => .error "boom"

/-- The demo document. -/
def demo_doc : List (String × String) := [("status", "Submitted")]

/-- A freshly created instance in `Pending`. -/
def demo_pending : Instance :=
  { document := "DOC-1", status := .Pending, current_step := 0, current_assignees := [],
    escalated := false, history := [] }

/-- The instance after `start_workflow`: at the Approval step, alice
assigned. -/
def demo_in_review : Instance :=
  { document := "DOC-1", status := .InProgress, current_step := 2, current_assignees := ["alice"],
    escalated := false,
    history := [{ step_order := 2, action := "Start", actor := "system", comment := "" }] }

/-- The instance after alice's Approve: at the End step, `Completed`. -/
def demo_completed : Instance :=
  { document := "DOC-1", status := .Completed, current_step := 3, current_assignees := [],
    escalated := false,
    history := [{ step_order := 2, action := "Start", actor := "system", comment := "" },
                { step_order := 3, action := "Approve", actor := "alice", comment := "" }] }

/-- An End step with order 2, for the two-step counterexample definition. -/
def dangling_end_step : StepRow := { demo_end_step with step_order := 2 }

/-- A definition whose topology checks pass while a transition's `to_step`
names no step of the definition. -/
def dangling_defn : WorkflowDefinition :=
  { workflow_name := "Dangling"
    document_type := "Document"
    is_active := true
    allow_parallel_steps := false
    auto_start_on_creation := false
    steps := [demo_start_step, dangling_end_step]
    transitions :=
      [{ from_step := "Start", to_step := "Ghost", auto_transition := false, notify_on_transition := true }]
    permissions := [] }

/-- A definition with no Start step, for the failed-activation witness. -/
def no_start_defn : WorkflowDefinition :=
  { demo_defn with workflow_name := "NoStart", steps := [demo_review_step] }

/-- A Field-based condition `status equals Submitted`. -/
def demo_cond_a : ConditionRow :=
  { condition_type := "Field-based", field_name := "status", operator := "equals",
    value := "Submitted", role := "", logical_operator := "AND" }

/-- A Field-based condition `status equals Draft`, combined with OR. -/
def demo_cond_b : ConditionRow := { demo_cond_a with value := "Draft", logical_operator := "OR" }

/-- An Approval step whose assignees come from a dynamic script. -/
def demo_dynamic_step : StepRow :=
  { blank_row with
    step_name := "Dyn"
    step_order := 2
    step_type := "Approval"
    assignee_type := "Dynamic"
    custom_script := "compute_assignees" }

/-- An Approval step declaring Reject (Rejection) and Send (Forward,
target Done) actions, for the argument-requirement witness. -/
def demo_reject_step : StepRow :=
  { demo_review_step with
    step_name := "Gate"
    actions :=
      [{ action_name := "Reject", action_type := "Rejection", next_step := "", role := "All" },
       { action_name := "Send", action_type := "Forward", next_step := "Done", role := "All" }] }

/-- A definition whose Approval step is `demo_reject_step`. -/
def demo_reject_defn : WorkflowDefinition :=
  { demo_defn with
    workflow_name := "Gate"
    steps := [demo_start_step, demo_reject_step, demo_end_step] }

/-- A scheduler state watching one overdue unresolved Approval entry
(`time_limit` 24h, one timeout day, two escalation days), nothing emitted
yet. -/
def demo_sched : SchedulerState :=
  { active := [{ key := { instance_id := "INST-1", step_order := 2, entered_at := 0 },
                 time_limit := 24, timeout_days := 1, escalation_days := 2, resolved := false }],
    emitted := [] }

/-! ## Theorems -/

/-- Sorting a list of naturals yields `1..n` exactly when the list is a
permutation of `1..n` (the sorted-prefix check of the validator equals
uniqueness plus contiguity). -/
theorem insertionSort_eq_range'_iff (l : List Nat) (n : Nat) :
    List.insertionSort (· ≤ ·) l = List.range' 1 n ↔ l.Perm (List.range' 1 n) := by
  constructor
  · intro h
    exact h ▸ (List.perm_insertionSort (· ≤ ·) l).symm
  · intro h
    refine List.eq_of_perm_of_sorted ((List.perm_insertionSort (· ≤ ·) l).trans h)
      (List.sorted_insertionSort (· ≤ ·) l) ?_
    exact (List.pairwise_lt_range' ..).imp le_of_lt

/-- The checks of `validate_workflow_before_activation`, characterized:
exactly one Start step, at least one End step, and the step orders a
permutation of `1..N`. -/
theorem workflow_steps_valid_iff (steps : List StepRow) :
    workflow_steps_valid steps = true ↔
      ((steps.filter (fun s => s.step_type == "Start")).length = 1 ∧
       1 ≤ (steps.filter (fun s => s.step_type == "End")).length ∧
       (steps.map (fun s => s.step_order)).Perm (List.range' 1 steps.length)) := by
  unfold workflow_steps_valid
  by_cases h1 : (steps.filter (fun s => s.step_type == "Start")).length = 1
  · by_cases h2 : (steps.filter (fun s => s.step_type == "End")).length = 0
    · simp [h1, h2]
    · simp [h1, h2, insertionSort_eq_range'_iff, Nat.one_le_iff_ne_zero]
  · simp [h1]

/-- C1 (corrected): the claim asserts activation also rejects definitions
with unresolvable `next_step`/`from_step`/`to_step` references; the code
performs no such check.  `dangling_defn` has a transition to the
nonexistent step "Ghost", yet every check passes and the `is_active`
trigger leaves it active, while the spec-side reference predicate is
false. -/
theorem activation_accepts_dangling_reference :
    workflow_steps_valid dangling_defn.steps = true
    ∧ is_active_trigger dangling_defn = dangling_defn
    ∧ refs_resolve_spec dangling_defn = false := by
  refine ⟨by decide, ?_, by decide⟩
  rfl

/-- C1 (amended): for a definition whose `is_active` flag was just set,
activation is kept (the trigger leaves `is_active` true) iff the
definition has exactly one Start step, at least one End step, and step
orders that are unique and form the contiguous sequence `1..N`; reference
resolution is not part of the check. -/
theorem activation_succeeds_iff_topology_valid (d : WorkflowDefinition)
    (hd : d.is_active = true) :
    (is_active_trigger d).is_active = true ↔
      (((d.steps.filter (fun s => s.step_type == "Start")).length = 1 ∧
        1 ≤ (d.steps.filter (fun s => s.step_type == "End")).length ∧
        (d.steps.map (fun s => s.step_order)).Perm (List.range' 1 d.steps.length))) := by
  rw [← workflow_steps_valid_iff]
  unfold is_active_trigger validate_workflow_before_activation
  rw [hd]
  by_cases hv : workflow_steps_valid d.steps
  · simp [hv, hd]
  · simp [hv]

/-- Witness for C1's amended theorem at the valid demo definition. -/
theorem activation_succeeds_iff_topology_valid_witness :
    (is_active_trigger demo_defn).is_active = true ↔
      (((demo_defn.steps.filter (fun s => s.step_type == "Start")).length = 1 ∧
        1 ≤ (demo_defn.steps.filter (fun s => s.step_type == "End")).length ∧
        (demo_defn.steps.map (fun s => s.step_order)).Perm
          (List.range' 1 demo_defn.steps.length))) :=
  activation_succeeds_iff_topology_valid demo_defn (by decide)

/-- C4: when a definition fails the activation checks, the `is_active`
trigger leaves it exactly in its previous inactive state: `is_active` is
(or returns to) false and no other field is modified. -/
theorem failed_activation_leaves_definition_unchanged (d : WorkflowDefinition)
    (h : workflow_steps_valid d.steps = false) :
    is_active_trigger d = { d with is_active := false } := by
  rcases d with ⟨wn, dt, ia, aps, asc, st, tr, pm⟩
  cases ia
  · simp [is_active_trigger]
  · simp only [is_active_trigger, validate_workflow_before_activation, if_true]
    simp only at h
    simp [h]

/-- Witness for C4 at the start-less definition. -/
theorem failed_activation_leaves_definition_unchanged_witness :
    is_active_trigger no_start_defn = { no_start_defn with is_active := false } :=
  failed_activation_leaves_definition_unchanged no_start_defn (by decide)

/-- The seed of a left `max` fold bounds the fold from below. -/
theorem le_foldl_max (l : List Nat) (init : Nat) : init ≤ l.foldl max init := by
  induction l generalizing init with
  | nil => exact le_refl _
  | cons b l ih => exact le_trans (le_max_left init b) (ih (max init b))

/-- Every member of a list bounds its left `max` fold from below. -/
theorem mem_le_foldl_max (l : List Nat) (init : Nat) (a : Nat) (ha : a ∈ l) :
    a ≤ l.foldl max init := by
  induction l generalizing init with
  | nil => cases ha
  | cons b l ih =>
    rcases List.mem_cons.mp ha with rfl | h
    · exact le_trans (le_max_right init a) (le_foldl_max l (max init a))
    · exact ih (max init b) h

/-- A left `max` fold is bounded by any common upper bound. -/
theorem foldl_max_le (l : List Nat) (init m : Nat) (hi : init ≤ m)
    (h : ∀ a, a ∈ l → a ≤ m) : l.foldl max init ≤ m := by
  induction l generalizing init with
  | nil => exact hi
  | cons b l ih =>
    exact ih (max init b) (max_le hi (h b (List.mem_cons_self b l)))
      (fun a ha => h a (List.mem_cons_of_mem _ ha))

/-- C10: a step row added without an explicit order is numbered
`max existing order + 1` (`1` when no step has an order), which is
strictly above every existing order — new rows append after the current
maximum and never fill a gap. -/
theorem steps_add_appends_after_max (steps : List StepRow) (row : StepRow)
    (h : row.step_order = 0) :
    (steps_add steps row).step_order = max_step_order steps + 1
    ∧ (∀ s, s ∈ steps → s.step_order < (steps_add steps row).step_order)
    ∧ ((∀ s, s ∈ steps → s.step_order = 0) → (steps_add steps row).step_order = 1) := by
  have horder : (steps_add steps row).step_order = max_step_order steps + 1 := by
    simp only [steps_add, h, beq_self_eq_true, if_true]
    split_ifs <;> rfl
  refine ⟨horder, ?_, ?_⟩
  · intro s hs
    rw [horder, Nat.lt_succ_iff]
    exact mem_le_foldl_max _ 0 s.step_order (List.mem_map_of_mem _ hs)
  · intro hz
    rw [horder]
    have : max_step_order steps = 0 := by
      refine Nat.le_antisymm (foldl_max_le _ 0 0 (le_refl 0) ?_) (Nat.zero_le _)
      intro a ha
      obtain ⟨s, hs, rfl⟩ := List.mem_map.mp ha
      exact Nat.le_of_eq (hz s hs)
    rw [this]

/-- Witness for C10: over existing orders 1 and 3 the new row gets 4. -/
theorem steps_add_appends_after_max_witness :
    (steps_add [demo_start_step, demo_end_step] blank_row).step_order =
      max_step_order [demo_start_step, demo_end_step] + 1
    ∧ demo_end_step.step_order < (steps_add [demo_start_step, demo_end_step] blank_row).step_order := by
  have h := steps_add_appends_after_max [demo_start_step, demo_end_step] blank_row (by decide)
  exact ⟨h.1, h.2.1 demo_end_step (by decide)⟩

/-- C9: the Start/End clearing invariant under the builder's row
operations: a freshly added row (defaulted to an Approval step) satisfies
it; the `step_type` handler establishes it whatever the previous field
values; an `assignee_type` edit — possible only on a step that is not
Start/End, since the field is hidden for those — preserves it. -/
theorem builder_operations_preserve_start_end_invariant :
    (∀ steps, step_invariant (steps_add steps blank_row))
    ∧ (∀ row t, step_invariant (step_type_handler row t))
    ∧ (∀ row a, step_invariant row → step_invariant (assignee_type_edit row a)) := by
  refine ⟨?_, ?_, ?_⟩
  · intro steps hst
    rcases hst with hst | hst <;> simp [steps_add, blank_row] at hst
  · intro row t
    by_cases hse : (t == "Start" || t == "End") = true
    · intro _
      simp only [step_type_handler, hse, if_true]
      exact ⟨rfl, rfl, rfl, rfl, rfl, rfl, rfl, rfl, rfl, rfl⟩
    · intro hst
      exfalso
      have hse' : ¬t = "Start" ∧ ¬t = "End" := by simpa using hse
      have ht : (step_type_handler row t).step_type = t := by
        simp only [step_type_handler]
        split_ifs
        all_goals rfl
      rw [ht] at hst
      rcases hst with hst | hst
      · exact hse'.1 hst
      · exact hse'.2 hst
  · intro row a h
    by_cases hg : (row.step_type == "Start" || row.step_type == "End") = true
    · simpa [assignee_type_edit, hg] using h
    · intro hst
      exfalso
      have : (assignee_type_edit row a).step_type = row.step_type := by
        simp only [assignee_type_edit, hg, if_false, assignee_type_handler]
        split_ifs <;> rfl
      rw [this] at hst
      rcases hst with hst | hst <;> simp [hst] at hg

/-- Witness for C9: editing the assignee type of a cleared Start step
through the builder leaves the invariant intact. -/
theorem builder_invariant_witness :
    step_invariant (assignee_type_edit (step_type_handler blank_row "Start") "Role") :=
  builder_operations_preserve_start_end_invariant.2.2
    (step_type_handler blank_row "Start") "Role"
    (fun _ => ⟨rfl, rfl, rfl, rfl, rfl, rfl, rfl, rfl, rfl, rfl⟩)

/-- C2: condition evaluation is the left-associative boolean fold — the
empty list is true; appending a condition to a nonempty chain combines the
chain's value with the new condition's own value through the new
condition's `logical_operator`; and the first condition's own
`logical_operator` never influences the result. -/
theorem evaluate_conditions_left_fold (actor_roles : List String)
    (doc : List (String × String)) :
    evaluate_conditions actor_roles doc [] = true
    ∧ (∀ (cs : List ConditionRow) (c : ConditionRow), cs ≠ [] →
        evaluate_conditions actor_roles doc (cs ++ [c]) =
          combine_condition c.logical_operator (evaluate_conditions actor_roles doc cs)
            (eval_single_condition actor_roles doc c))
    ∧ (∀ (c : ConditionRow) (op : String) (rest : List ConditionRow),
        evaluate_conditions actor_roles doc ({ c with logical_operator := op } :: rest) =
          evaluate_conditions actor_roles doc (c :: rest)) := by
  refine ⟨rfl, ?_, ?_⟩
  · intro cs c hcs
    match cs with
    | [] => exact absurd rfl hcs
    | c0 :: cs' =>
      simp [evaluate_conditions, List.foldl_append]
  · intro c op rest
    rcases c with ⟨ct, fn, o, v, r, lo⟩
    rfl

/-- Witness for C2: an equals-Submitted condition OR-chained with an
equals-Draft condition over the demo document. -/
theorem evaluate_conditions_left_fold_witness :
    evaluate_conditions [] demo_doc ([demo_cond_a] ++ [demo_cond_b]) =
      combine_condition demo_cond_b.logical_operator
        (evaluate_conditions [] demo_doc [demo_cond_a])
        (eval_single_condition [] demo_doc demo_cond_b) :=
  (evaluate_conditions_left_fold [] demo_doc).2.1 [demo_cond_a] demo_cond_b (by decide)

/-- C3: `execute_action` on an instance whose status is not `In Progress`
(Pending, Completed or Cancelled) fails with `StateError`, and the stored
instance state is unchanged. -/
theorem execute_action_requires_in_progress (defn : WorkflowDefinition)
    (users : List UserRec)
    (script : List (String × String) → Except String (List String))
    (doc : List (String × String)) (actor_roles : List String) (inst : Instance)
    (action_name actor comment : String) (reason : Option String)
    (next_step : Option String) (h : inst.status ≠ .InProgress) :
    execute_action defn users script doc actor_roles inst action_name actor
      comment reason next_step = .error .StateError
    ∧ apply_execute defn users script doc actor_roles inst action_name actor
      comment reason next_step = inst := by
  have he : execute_action defn users script doc actor_roles inst action_name actor
      comment reason next_step = .error .StateError := by
    unfold execute_action
    simp [h]
  exact ⟨he, by unfold apply_execute; rw [he]⟩

/-- Witness for C3 at a `Pending` demo instance. -/
theorem execute_action_requires_in_progress_witness :
    execute_action demo_defn demo_users demo_script demo_doc [] demo_pending
      "Approve" "alice" "" none none = .error .StateError
    ∧ apply_execute demo_defn demo_users demo_script demo_doc [] demo_pending
      "Approve" "alice" "" none none = demo_pending :=
  execute_action_requires_in_progress demo_defn demo_users demo_script demo_doc []
    demo_pending "Approve" "alice" "" none none (by decide)

/-- C7: a Dynamic step whose resolution script raises: `resolve` catches
the exception as `ResolutionError.ScriptFailed`; entering the step treats
it as zero assignees and escalates; advancing an instance into the step
still succeeds with a normal status — the workflow is not aborted. -/
theorem dynamic_script_failure_escalates (step : StepRow)
    (doc : List (String × String)) (users : List UserRec)
    (script : List (String × String) → Except String (List String)) (msg : String)
    (hd : step.assignee_type = "Dynamic") (hs : script doc = .error msg) :
    resolve step doc users script = .error .ScriptFailed
    ∧ enter_step step doc users script = ([], true)
    ∧ ∀ (inst : Instance) (entry : HistoryEntry),
        (advance_to users script doc inst step entry).current_assignees = []
        ∧ (advance_to users script doc inst step entry).escalated = true
        ∧ (advance_to users script doc inst step entry).status =
            (if step.step_type == "End" then WStatus.Completed else WStatus.InProgress) := by
  have hres : resolve step doc users script = .error .ScriptFailed := by
    unfold resolve
    rw [hd, hs]
    rfl
  have hent : enter_step step doc users script = ([], true) := by
    unfold enter_step
    rw [hres]
  refine ⟨hres, hent, ?_⟩
  intro inst entry
  refine ⟨?_, ?_, ?_⟩ <;> simp [advance_to, hent]

/-- Witness for C7 at the concrete dynamic step and a raising script. -/
theorem dynamic_script_failure_escalates_witness :
    resolve demo_dynamic_step demo_doc demo_users failing_script =
      .error .ScriptFailed
    ∧ enter_step demo_dynamic_step demo_doc demo_users failing_script = ([], true)
    ∧ (advance_to demo_users failing_script demo_doc demo_in_review demo_dynamic_step
        { step_order := 2, action := "Forward", actor := "alice", comment := "" }).escalated = true := by
  have h := dynamic_script_failure_escalates demo_dynamic_step demo_doc demo_users
    failing_script "boom" rfl rfl
  exact ⟨h.1, h.2.1,
    (h.2.2 demo_in_review
      { step_order := 2, action := "Forward", actor := "alice", comment := "" }).2.1⟩

/-- Shape of a scheduler scan fold: it only appends a block of new keys,
the same block to the emitted log and to the fired list; every new key was
absent from the starting log; and a duplicate-free log stays
duplicate-free. -/
theorem scan_fold_shape (now : Nat) (l : List ActiveStepEntry)
    (acc : SchedulerState × List StepEntryKey) :
    ∃ new, l.foldl (scan_step now) acc =
        ({ acc.1 with emitted := acc.1.emitted ++ new }, acc.2 ++ new)
      ∧ (∀ k, k ∈ new → k ∉ acc.1.emitted)
      ∧ (acc.1.emitted.Nodup → (acc.1.emitted ++ new).Nodup) := by
  induction l generalizing acc with
  | nil => exact ⟨[], by simp, by simp, by simp⟩
  | cons e l ih =>
    by_cases hc : (escalation_due now e && !acc.1.emitted.contains e.key) = true
    · have hstep : scan_step now acc e =
          ({ acc.1 with emitted := acc.1.emitted ++ [e.key] }, acc.2 ++ [e.key]) := by
        unfold scan_step
        rw [hc]
        rfl
      have hke : e.key ∉ acc.1.emitted := by
        have := (Bool.and_eq_true .. ▸ hc).2
        simpa using this
      obtain ⟨new, heq, hfresh, hnodup⟩ :=
        ih ({ acc.1 with emitted := acc.1.emitted ++ [e.key] }, acc.2 ++ [e.key])
      refine ⟨e.key :: new, ?_, ?_, ?_⟩
      · rw [List.foldl_cons, hstep, heq]
        simp
      · intro k hk
        rcases List.mem_cons.mp hk with rfl | hk'
        · exact hke
        · have := hfresh k hk'
          simp only [List.mem_append] at this
          intro hmem
          exact this (Or.inl hmem)
      · intro hnd
        have h1 : (acc.1.emitted ++ [e.key]).Nodup := by
          rw [List.nodup_append]
          exact ⟨hnd, List.nodup_singleton _, by simpa using hke⟩
        have := hnodup h1
        simpa using this
    · have hstep : scan_step now acc e = acc := by
        unfold scan_step
        exact if_neg hc
      rw [List.foldl_cons, hstep]
      exact ih acc

/-- C6: scan emission is idempotent per step-entry key: every key fired by
a scan is fresh (never emitted before) and is recorded; a duplicate-free
emitted log stays duplicate-free; one scan never fires the same key twice;
and re-running the scan — at any later time, as after a restart or
re-delivery — fires none of the keys the first scan fired. -/
theorem scan_emits_at_most_once_per_key (σ : SchedulerState) (now now' : Nat)
    (hnd : σ.emitted.Nodup) :
    (∀ k, k ∈ (scan σ now).2 → k ∉ σ.emitted ∧ k ∈ (scan σ now).1.emitted)
    ∧ (scan σ now).1.emitted.Nodup
    ∧ (scan σ now).2.Nodup
    ∧ (∀ k, k ∈ (scan (scan σ now).1 now').2 → k ∉ (scan σ now).2) := by
  obtain ⟨new, heq, hfresh, hnodup⟩ := scan_fold_shape now σ.active (σ, [])
  have hscan : scan σ now = ({ σ with emitted := σ.emitted ++ new }, new) := by
    rw [scan, heq]
    simp
  have hem : (scan σ now).1.emitted = σ.emitted ++ new := by rw [hscan]
  have hfired : (scan σ now).2 = new := by rw [hscan]
  have hnodup2 : (σ.emitted ++ new).Nodup := hnodup hnd
  refine ⟨?_, ?_, ?_, ?_⟩
  · intro k hk
    rw [hfired] at hk
    exact ⟨hfresh k hk, by rw [hem]; exact List.mem_append_right _ hk⟩
  · rw [hem]; exact hnodup2
  · rw [hfired]; exact hnodup2.of_append_right
  · intro k hk
    have hactive : (scan σ now).1.active = σ.active := by rw [hscan]
    obtain ⟨new2, heq2, hfresh2, _⟩ :=
      scan_fold_shape now' (scan σ now).1.active ((scan σ now).1, [])
    have hfired2 : (scan (scan σ now).1 now').2 = new2 := by
      rw [scan, heq2]
      simp
    rw [hfired2] at hk
    have := hfresh2 k hk
    rw [hem] at this
    rw [hfired]
    intro hmem
    exact this (List.mem_append_right _ hmem)

/-- Witness for C6 at the overdue demo entry: the first scan fires its key
once, the immediate re-scan fires nothing. -/
theorem scan_emits_at_most_once_per_key_witness :
    (scan demo_sched 100).2.Nodup
    ∧ ({ instance_id := "INST-1", step_order := 2, entered_at := 0 } : StepEntryKey)
        ∉ (scan (scan demo_sched 100).1 100).2 := by
  have h := scan_emits_at_most_once_per_key demo_sched 100 100 (by decide)
  refine ⟨h.2.2.1, fun hmem => ?_⟩
  have := h.2.2.2 _ hmem
  exact this (by decide)

/-- In a definition with duplicate-free step orders, looking a member step
up by its order finds exactly that step. -/
theorem find?_order_eq_some_of_nodup (steps : List StepRow)
    (h : (steps.map (fun s => s.step_order)).Nodup) (t : StepRow) (ht : t ∈ steps) :
    steps.find? (fun s => s.step_order == t.step_order) = some t := by
  induction steps with
  | nil => cases ht
  | cons b l ih =>
    rw [List.map_cons] at h
    rcases List.mem_cons.mp ht with rfl | htl
    · rw [List.find?_cons]
      simp
    · have hmap : t.step_order ∈ l.map (fun s => s.step_order) :=
        List.mem_map_of_mem _ htl
      have hfalse : (b.step_order == t.step_order) = false := by
        simp only [beq_eq_false_iff_ne, ne_eq]
        intro he
        exact (List.nodup_cons.mp h).1 (he ▸ hmap)
      rw [List.find?_cons]
      simp only [hfalse]
      exact ih (List.nodup_cons.mp h).2 htl

/-- A successful `start_workflow` lands on a member step of the
definition, at that step's order, Completed exactly when it is an End
step. -/
theorem start_workflow_ok_shape {defn : WorkflowDefinition} {users : List UserRec}
    {script : List (String × String) → Except String (List String)}
    {doc : List (String × String)} {inst inst' : Instance}
    (h : start_workflow defn users script doc inst = .ok inst') :
    ∃ target, target ∈ defn.steps ∧ inst'.current_step = target.step_order ∧
      inst'.status = (if target.step_type == "End" then WStatus.Completed else WStatus.InProgress) := by
  unfold start_workflow at h
  split at h
  · exact Except.noConfusion h
  split at h
  · exact Except.noConfusion h
  split at h
  · exact Except.noConfusion h
  split at h
  · exact Except.noConfusion h
  next target htarget =>
    obtain rfl := (Except.ok.inj h).symm
    exact ⟨target, List.mem_of_find?_eq_some htarget, rfl, rfl⟩

/-- A successful `execute_action` starts from `In Progress` and either
cancels in place or lands on a member step of the definition, at that
step's order, Completed exactly when it is an End step. -/
theorem execute_action_ok_shape {defn : WorkflowDefinition} {users : List UserRec}
    {script : List (String × String) → Except String (List String)}
    {doc : List (String × String)} {actor_roles : List String} {inst : Instance}
    {action_name actor comment : String} {reason : Option String}
    {next_step : Option String} {inst' : Instance}
    (h : execute_action defn users script doc actor_roles inst action_name actor
      comment reason next_step = .ok inst') :
    inst.status = .InProgress ∧
    ((inst'.status = .Cancelled ∧ inst'.current_step = inst.current_step) ∨
     ∃ target, target ∈ defn.steps ∧ inst'.current_step = target.step_order ∧
       inst'.status = (if target.step_type == "End" then WStatus.Completed else WStatus.InProgress)) := by
  unfold execute_action at h
  split at h
  · exact Except.noConfusion h
  next hs =>
    refine ⟨by simpa using hs, ?_⟩
    split at h
    · exact Except.noConfusion h
    split at h
    · exact Except.noConfusion h
    split at h
    · exact Except.noConfusion h
    split at h
    · exact Except.noConfusion h
    split at h
    · exact Except.noConfusion h
    split at h
    · obtain rfl := (Except.ok.inj h).symm
      exact Or.inl ⟨rfl, rfl⟩
    split at h
    · exact Except.noConfusion h
    split at h
    · exact Except.noConfusion h
    next target htarget =>
      obtain rfl := (Except.ok.inj h).symm
      exact Or.inr ⟨target, List.mem_of_find?_eq_some htarget, rfl, rfl⟩


/-- C5: for a definition with duplicate-free step orders, every instance
reachable by `start_workflow` followed by legal `execute_action` calls
satisfies: whenever its current step is an End step its status is
`Completed`, and from `Completed` every further `execute_action` fails
with `StateError` — the instance never leaves the terminal state. -/
theorem reaching_end_completes_and_is_terminal (defn : WorkflowDefinition)
    (horders : (defn.steps.map (fun s => s.step_order)).Nodup)
    (inst : Instance) (hr : ReachableInstance defn inst) :
    (step_kind_at defn inst.current_step = some "End" → inst.status = .Completed)
    ∧ (inst.status = .Completed →
        ∀ (users : List UserRec)
          (script : List (String × String) → Except String (List String))
          (doc : List (String × String)) (actor_roles : List String)
          (action_name actor comment : String) (reason : Option String)
          (next_step : Option String),
          execute_action defn users script doc actor_roles inst action_name actor
            comment reason next_step = .error .StateError) := by
  induction hr with
  | start users script doc i0 i1 h =>
    obtain ⟨target, hmem, hcs, hst⟩ := start_workflow_ok_shape h
    constructor
    · intro hk
      rw [step_kind_at, hcs, find?_order_eq_some_of_nodup defn.steps horders target hmem] at hk
      simp only [Option.map_some', Option.some.injEq] at hk
      rw [hst, if_pos (by simp [hk])]
    · intro hc users' script' doc' actor_roles an a c r ns
      unfold execute_action
      rw [if_pos (by simp [hc])]
  | exec users script doc actor_roles i an a c r ns i' hri h ih =>
    obtain ⟨hstatus, hcase⟩ := execute_action_ok_shape h
    rcases hcase with ⟨hcanc, hsame⟩ | ⟨target, hmem, hcs, hst⟩
    · constructor
      · intro hk
        rw [hsame] at hk
        have := ih.1 hk
        rw [hstatus] at this
        exact absurd this (by simp)
      · intro hc
        rw [hcanc] at hc
        exact absurd hc (by simp)
    · constructor
      · intro hk
        rw [step_kind_at, hcs, find?_order_eq_some_of_nodup defn.steps horders target hmem] at hk
        simp only [Option.map_some', Option.some.injEq] at hk
        rw [hst, if_pos (by simp [hk])]
      · intro hc users' script' doc' actor_roles' an' a' c' r' ns'
        unfold execute_action
        rw [if_pos (by simp [hc])]

/-- Witness for C5: the §8 demo run — start, then alice's Approve — ends
on the End step with status `Completed`, and a further Approve attempt
fails with `StateError`. -/
theorem reaching_end_witness :
    demo_completed.status = WStatus.Completed
    ∧ execute_action demo_defn demo_users demo_script demo_doc [] demo_completed
        "Approve" "alice" "" none none = .error .StateError := by
  have hreach : ReachableInstance demo_defn demo_completed :=
    ReachableInstance.exec demo_users demo_script demo_doc [] demo_in_review
      "Approve" "alice" "" none none demo_completed
      (ReachableInstance.start demo_users demo_script demo_doc demo_pending
        demo_in_review rfl)
      rfl
  have h := reaching_end_completes_and_is_terminal demo_defn (by decide)
    demo_completed hreach
  have hc : demo_completed.status = WStatus.Completed := h.1 rfl
  exact ⟨hc, h.2 hc demo_users demo_script demo_doc [] "Approve" "alice" "" none none⟩

/-- C8: with the state/step/actor/action checks passed, `execute_action`
fails with `MissingReason` exactly when the action's type is Rejection or
Cancel and the reason is absent or empty, and fails with `MissingNextStep`
exactly when the type is Forward and no declared Forward target was
supplied; the client dialog mirrors this, marking `reason` required
exactly for Rejection/Cancel and `next_step` exactly for Forward. -/
theorem action_argument_requirements (defn : WorkflowDefinition) (users : List UserRec)
    (script : List (String × String) → Except String (List String))
    (doc : List (String × String)) (actor_roles : List String) (inst : Instance)
    (action_name actor comment : String) (reason : Option String)
    (next_step : Option String) (st : StepRow) (act : ActionRow)
    (hstatus : inst.status = .InProgress)
    (hstep : defn.steps.find? (fun s => s.step_order == inst.current_step) = some st)
    (hauth : inst.current_assignees.contains actor = true)
    (hact : st.actions.find? (fun a => a.action_name == action_name) = some act) :
    (execute_action defn users script doc actor_roles inst action_name actor
        comment reason next_step = .error .MissingReason
      ↔ ((act.action_type = "Rejection" ∨ act.action_type = "Cancel")
          ∧ reason.getD "" = ""))
    ∧ (execute_action defn users script doc actor_roles inst action_name actor
        comment reason next_step = .error .MissingNextStep
      ↔ (act.action_type = "Forward"
          ∧ (next_step.map (fun t => (forward_targets st).contains t)).getD false = false))
    ∧ (("reason", true) ∈ execute_workflow_action_fields act.action_type
      ↔ (act.action_type = "Rejection" ∨ act.action_type = "Cancel"))
    ∧ (("next_step", true) ∈ execute_workflow_action_fields act.action_type
      ↔ act.action_type = "Forward") := by
  refine ⟨?_, ?_, ?_, ?_⟩
  · unfold execute_action
    simp only [hstatus, hstep, hauth, hact, bne_self_eq_false, Bool.false_eq_true,
      if_false, Bool.true_or, Bool.not_true, Bool.and_eq_true, Bool.or_eq_true,
      beq_iff_eq, Bool.not_eq_true']
    split_ifs with h1 h2 h3 h4 h5
    · exact iff_of_true rfl h1
    · exact iff_of_false (by simp) h1
    · exact iff_of_false (by simp) h1
    · exact iff_of_false (by simp) h1
    · refine iff_of_false ?_ h1
      split
      · simp
      · simp
    · refine iff_of_false ?_ h1
      split
      · simp
      · simp
  · unfold execute_action
    simp only [hstatus, hstep, hauth, hact, bne_self_eq_false, Bool.false_eq_true,
      if_false, Bool.true_or, Bool.not_true, Bool.and_eq_true, Bool.or_eq_true,
      beq_iff_eq, Bool.not_eq_true']
    split_ifs with h1 h2 h3 h4
    · refine iff_of_false (by simp) ?_
      rintro ⟨hf, _⟩
      rcases h1.1 with h | h
      · rw [hf] at h
        exact absurd h (by decide)
      · rw [hf] at h
        exact absurd h (by decide)
    · exact iff_of_true rfl h2
    · exact iff_of_false (by simp) h2
    · exact iff_of_false (by simp) h2
    · refine iff_of_false ?_ h2
      split
      · simp
      · simp
    · refine iff_of_false ?_ h2
      split
      · simp
      · simp
  · by_cases hr : act.action_type = "Rejection"
    · simp [execute_workflow_action_fields, hr]
    · by_cases hcn : act.action_type = "Cancel"
      · simp [execute_workflow_action_fields, hcn]
      · by_cases hf : act.action_type = "Forward"
        · simp [execute_workflow_action_fields, hf, hr, hcn]
        · simp [execute_workflow_action_fields, hr, hcn, hf]
  · by_cases hf : act.action_type = "Forward"
    · simp [execute_workflow_action_fields, hf]
    · by_cases hr : act.action_type = "Rejection"
      · simp [execute_workflow_action_fields, hr, hf]
      · by_cases hcn : act.action_type = "Cancel"
        · simp [execute_workflow_action_fields, hcn, hf]
        · simp [execute_workflow_action_fields, hr, hcn, hf]

/-- Witness for C8: a Rejection action executed without a reason fails
with `MissingReason`. -/
theorem action_argument_requirements_witness :
    execute_action demo_reject_defn demo_users demo_script demo_doc [] demo_in_review
      "Reject" "alice" "" none none = .error .MissingReason := by
  have h := action_argument_requirements demo_reject_defn demo_users demo_script
    demo_doc [] demo_in_review "Reject" "alice" "" none none demo_reject_step
    { action_name := "Reject", action_type := "Rejection", next_step := "", role := "All" }
    rfl rfl rfl rfl
  exact h.1.mpr ⟨Or.inl rfl, rfl⟩

end PwpProject
